import Mathlib

/-!
Verification development for the flatvodka installer and sandbox runner
(src/src/main.rs).  The effectful Rust program is shallowly embedded as
trace-producing Lean functions over abstract host/filesystem oracles:

* `resolveInput` / `resolveNonDescriptor` embed the reference
  canonicalization in `install_logic` (main.rs lines 106-123);
* `checkoutAndActivate` embeds the checkout-and-activate tail of
  `install_logic` (lines 147-181), with the external `ostree checkout`
  modelled as materializing `RepoState.content commit` entries on success;
* `runApp` embeds `run_app` (lines 200-626) as a function from a `Host`
  oracle (which host paths exist, which external commands succeed, how the
  child exits) to the list of effect events it issues plus its outcome;
* `injectOne` / `injectLibs` embed `inject_missing_libs` (lines 528-572).
-/

namespace Flatvodka

/-! ## String primitives

Rust's `str::contains(char)`, `str::starts_with`, `str::ends_with` and
`str::split('/')` are embedded over the character list of a `String`, which
(unlike the position-based core `String` functions) the kernel can
evaluate on concrete inputs. -/

def strContains (s : String) (c : Char) : Bool :=
  s.data.contains c

def strStarts (s p : String) : Bool :=
  p.data.isPrefixOf s.data

def strEnds (s p : String) : Bool :=
  p.data.isSuffixOf s.data

/-- Split a character list at every occurrence of `c`, keeping empty
pieces, as Rust's `split(c)` does. -/
def splitChar (c : Char) : List Char → List (List Char)
  | [] => [[]]
  | x :: xs =>
    let r := splitChar c xs
    if x = c then [] :: r
    else
      match r with
      | [] => [[x]]
      | h :: t => (x :: h) :: t

def splitSlash (s : String) : List String :=
  (splitChar '/' s.data).map String.mk

/-! ## Reference canonicalization (install_logic, lines 106-123) -/

def FLATHUB_URL : String := "https://dl.flathub.org/repo/"

structure Resolved where
  refId : String
  remoteName : String
  remoteUrl : String
deriving DecidableEq, Repr

/-- The non-`.flatpakref` arm of the resolver (lines 115-123): an input with
a slash is kept if it starts with `runtime/` or `app/` and otherwise gets
`runtime/` prefixed; a bare identifier becomes `app/<id>/x86_64/stable`.
All three cases use the well-known `flathub` remote. -/
def resolveNonDescriptor (input : String) : Resolved :=
  if strContains input '/' then
    if strStarts input "runtime/" || strStarts input "app/" then
      ⟨input, "flathub", FLATHUB_URL⟩
    else
      ⟨"runtime/" ++ input, "flathub", FLATHUB_URL⟩
  else
    ⟨"app/" ++ input ++ "/x86_64/stable", "flathub", FLATHUB_URL⟩

inductive ResolveResult where
  | descriptor
  | pure (r : Resolved)
deriving DecidableEq, Repr

/-- The resolver dispatch (line 106): inputs ending in `.flatpakref` are
descriptor files and are read from disk; every other input is resolved by
the pure function `resolveNonDescriptor` with no filesystem or network
access. -/
def resolveInput (input : String) : ResolveResult :=
  if strEnds input ".flatpakref" then .descriptor
  else .pure (resolveNonDescriptor input)

/-! ## Install: checkout and active-pointer update (lines 147-181)

The external repository is abstracted by `RepoState`: `content c` is the
number of directory entries that a successful `ostree checkout` of commit
`c` materializes.  The on-disk installation layout is `InstallFS`:
`commitEntries ref c` is `some n` when the commit directory for `c` under
the installation base of `ref` exists with `n` entries, `none` when it does
not exist; `active ref` is the commit the active symlink names, if any. -/

structure RepoState where
  content : String → Nat

structure InstallFS where
  commitEntries : String → String → Option Nat
  active : String → Option String

inductive InstallEvent where
  | removeCommitDir (refId commit : String)
  | checkout (commit : String)
  | removeActive (refId : String)
  | setActive (refId commit : String)
deriving DecidableEq, Repr

inductive InstallResult where
  | ok (fs : InstallFS) (events : List InstallEvent)
  | exited (code : Nat) (events : List InstallEvent)

/-- Line 159: `!commit_dir.exists() || read_dir(..) has no entry`. -/
def dirMissingOrEmpty (d : Option Nat) : Bool :=
  match d with
  | none => true
  | some n => n == 0

/-- Lines 180-181: remove the active symlink if present, then create it
naming `commit` (both results are ignored by the code; the model has them
succeed). -/
def setActivePointer (fs : InstallFS) (refId commit : String) :
    InstallFS × List InstallEvent :=
  ({ fs with active := fun r => if r = refId then some commit else fs.active r },
   (if (fs.active refId).isSome then [InstallEvent.removeActive refId] else [])
     ++ [InstallEvent.setActive refId commit])

/-- Lines 159-181 of `install_logic`: if the commit directory is missing or
empty, remove any stale directory, run `ostree checkout` (exiting 1 when it
fails), and in every surviving case replace the active pointer.  `checkoutOk`
is the external checkout's exit status; on success it materializes
`repo.content commit` entries. -/
def checkoutAndActivate (repo : RepoState) (checkoutOk : Bool)
    (fs : InstallFS) (refId commit : String) : InstallResult :=
  if dirMissingOrEmpty (fs.commitEntries refId commit) then
    let evs0 := (if (fs.commitEntries refId commit).isSome then
        [InstallEvent.removeCommitDir refId commit] else [])
      ++ [InstallEvent.checkout commit]
    if checkoutOk then
      let fs1 : InstallFS :=
        { fs with commitEntries := fun r c =>
            if r = refId ∧ c = commit then some (repo.content commit)
            else fs.commitEntries r c }
      let p := setActivePointer fs1 refId commit
      .ok p.1 (evs0 ++ p.2)
    else
      .exited 1 evs0
  else
    let p := setActivePointer fs refId commit
    .ok p.1 p.2

def isCheckout : InstallEvent → Bool
  | .checkout _ => true
  | _ => false

def countCheckouts (evs : List InstallEvent) : Nat :=
  evs.countP (fun e => isCheckout e)

/-- The installation state after a successful fresh checkout of `commit`
for `refId` followed by the active-pointer swap. -/
def freshFS (repo : RepoState) (fs : InstallFS) (refId commit : String) :
    InstallFS where
  commitEntries := fun r c =>
    if r = refId ∧ c = commit then some (repo.content commit)
    else fs.commitEntries r c
  active := fun r => if r = refId then some commit else fs.active r

/-- The installation state after an already-installed (skip-checkout)
activation. -/
def skipFS (fs : InstallFS) (refId commit : String) : InstallFS where
  commitEntries := fs.commitEntries
  active := fun r => if r = refId then some commit else fs.active r

/-! ## The sandbox runner (run_app, lines 200-626)

`run_app` is embedded as a function from a `Host` oracle to the list of
effect events it issues (in program order) and its outcome.  The oracle
records which host paths exist, the `command`/`runtime` metadata keys, the
exit status of each external command the code checks, and how the confined
child terminates.  Rust panics (`expect`/indexing) are the `panicked`
outcome; `std::process::exit(n)` is `exited n`. -/

structure Metadata where
  runtime : Option String
  command : Option String
deriving DecidableEq, Repr

structure Host where
  userName : String
  uid : String
  waylandDisplay : Option String
  pathExists : List String → Bool
  metadata : Option Metadata
  prevRootExists : Bool
  tmpfsOk : Bool
  tarRuntimeOk : Bool
  tarAppOk : Bool
  hostFontsExist : Bool
  x11Exists : Bool
  waylandSocketExists : Bool
  pulseExists : Bool
  atspiExists : Bool
  dbusExists : Bool
  shExists : Bool
  jailOk : Bool
  binInJail : Bool
  spawnOk : Bool
  childExit : Option Nat

inductive Bridge where
  | fonts
  | x11
  | wayland
  | pulse
  | atspi
  | dbus
deriving DecidableEq, Repr

inductive RunEvent where
  | jailRemove
  | umountSub (target : String)
  | umountRoot
  | removeRootTree
  | mountTmpfs
  | tarCopyRuntime
  | tarCopyApp
  | warn (msg : String)
  | repairLayout
  | buildRunHierarchy
  | bindMount (b : Bridge) (ro : Bool)
  | mountPseudo (fstype : String)
  | jailCreate
  | brand (path : String)
  | spawnChild (binPath : String)
deriving DecidableEq, Repr

inductive Outcome where
  | exited (code : Nat)
  | panicked
deriving DecidableEq, Repr

/-- Line 211: the app tree is looked up at the fixed path
`app/<id>/x86_64/stable/active/files` under the per-user base. -/
def appFilesPath (appId : String) : List String :=
  ["app", appId, "x86_64", "stable", "active", "files"]

/-- Lines 221-222: the runtime tree path is built from the first three
`/`-separated components of the metadata `runtime` value. -/
def runtimeFilesPath (rtStr : String) : List String :=
  let parts := splitSlash rtStr
  ["runtime", parts.getD 0 "", parts.getD 1 "", parts.getD 2 "", "active", "files"]

/-- Lines 229-246: if a previous ephemeral root for this app id exists,
unregister the jail, force-unmount each well-known target (the Wayland
socket only when `WAYLAND_DISPLAY` is set), unmount the root last, and
remove the root tree.  All results are ignored (best-effort). -/
def teardownTrace (h : Host) : List RunEvent :=
  if h.prevRootExists then
    [RunEvent.jailRemove,
     RunEvent.umountSub "tmp/.X11-unix",
     RunEvent.umountSub "dev",
     RunEvent.umountSub "proc",
     RunEvent.umountSub "sys",
     RunEvent.umountSub "var/run/dbus",
     RunEvent.umountSub "run/host/fonts",
     RunEvent.umountSub ("var/run/xdg/" ++ h.userName ++ "/at-spi")]
    ++ (match h.waylandDisplay with
        | some wl => [RunEvent.umountSub ("run/user/" ++ h.uid ++ "/" ++ wl)]
        | none => [])
    ++ [RunEvent.umountRoot, RunEvent.removeRootTree]
  else []

/-- Lines 345-405: each optional host-resource bridge is bind-mounted only
when the host-side resource exists (the Wayland one additionally requires
`WAYLAND_DISPLAY` to be set); fonts are mounted read-only, sockets
read-write.  Absent resources are skipped; mount results are ignored. -/
def bridgeTrace (h : Host) : List RunEvent :=
  (if h.hostFontsExist then [RunEvent.bindMount .fonts true] else [])
  ++ (if h.x11Exists then [RunEvent.bindMount .x11 false] else [])
  ++ (match h.waylandDisplay with
      | some _ =>
        if h.waylandSocketExists then [RunEvent.bindMount .wayland false] else []
      | none => [])
  ++ (if h.pulseExists then [RunEvent.bindMount .pulse false] else [])
  ++ (if h.atspiExists then [RunEvent.bindMount .atspi false] else [])
  ++ (if h.dbusExists then [RunEvent.bindMount .dbus false] else [])

/-- Lines 410-412: the three kernel pseudo-filesystems are mounted via
`sys_mount`, whose status is ignored. -/
def pseudoTrace : List RunEvent :=
  [RunEvent.mountPseudo "devfs", RunEvent.mountPseudo "linprocfs",
   RunEvent.mountPseudo "linsysfs"]

/-- Line 220: `command` metadata key with `"sh"` fallback. -/
def defaultCmd (command : Option String) : String :=
  command.getD "sh"

/-- Lines 434-438 with the first trailing argument already extracted:
`argv.get(0)` is `argv0`.  With `raw_sockets` (the CLI default, and with
clap's `SetTrue` action for a `bool` flag the only reachable value) the
first trailing argument replaces the metadata default command; without
trailing arguments the default command is used. -/
def finalCmdFrom (rawSockets : Bool) (dc : String) (argv0 : Option String) :
    String :=
  if !rawSockets then dc else argv0.getD dc

/-- Lines 434-438: the command actually launched, as a function of the full
trailing argument vector — only its first element is consulted. -/
def finalCmd (rawSockets : Bool) (dc : String) (argv : List String) : String :=
  finalCmdFrom rawSockets dc argv.head?

/-- Lines 439-443: relative commands are resolved under `/app/bin/`. -/
def binPath (fc : String) : String :=
  if strStarts fc "/" then fc else "/app/bin/" ++ fc

/-- Lines 413-625, from the `/bin/sh` presence check to process exit.
On missing shell or failed jail creation the root is force-unmounted and
the process exits 1; after a successful spawn the jail is unregistered and
the child's exit code propagated (1 when the child was signalled or the
wait failed); the ephemeral root and its mounts are left in place. -/
def launchTrace (h : Host) (bp : String) : List RunEvent × Outcome :=
  if h.shExists = false then ([RunEvent.umountRoot], .exited 1)
  else
    let t5 := [RunEvent.jailCreate]
    if h.jailOk = false then (t5 ++ [RunEvent.umountRoot], .exited 1)
    else
      let t6 := t5 ++ (if h.binInJail then [RunEvent.brand bp] else [])
        ++ [RunEvent.spawnChild bp]
      if h.spawnOk = false then (t6 ++ [RunEvent.jailRemove], .exited 1)
      else
        match h.childExit with
        | some c => (t6 ++ [RunEvent.jailRemove], .exited c)
        | none => (t6 ++ [RunEvent.jailRemove], .exited 1)

/-- Everything after the two tar copies (lines 292 onward): layout repair
and run-hierarchy construction (no mounts), the optional resource bridges,
the kernel pseudo-filesystem mounts, then the launch tail. -/
def postTarTrace (h : Host) (bp : String) : List RunEvent × Outcome :=
  let t4 := [RunEvent.repairLayout, RunEvent.buildRunHierarchy]
    ++ bridgeTrace h ++ pseudoTrace
  let l := launchTrace h bp
  (t4 ++ l.1, l.2)

/-- The body of `run_app` (lines 200-626), with the first trailing argument already
extracted.  The privilege check (line 201) is outside the model; the trace
starts at the app-files lookup.  Missing app or runtime files exit 1;
unreadable metadata, a missing `runtime` key, or a `runtime` value with
fewer than three `/`-separated components panic; tmpfs-mount failure and
runtime-tree copy failure exit 1; app-tree copy failure only emits a
warning and the pipeline continues. -/
def runAppFrom (h : Host) (appId : String) (argv0 : Option String)
    (rawSockets : Bool) : List RunEvent × Outcome :=
  if h.pathExists (appFilesPath appId) = false then ([], .exited 1)
  else
    match h.metadata with
    | none => ([], .panicked)
    | some md =>
      match md.runtime with
      | none => ([], .panicked)
      | some rtStr =>
        if (splitSlash rtStr).length < 3 then ([], .panicked)
        else if h.pathExists (runtimeFilesPath rtStr) = false then
          ([], .exited 1)
        else
          let t1 := teardownTrace h ++ [RunEvent.mountTmpfs]
          if h.tmpfsOk = false then (t1, .exited 1)
          else
            let t2 := t1 ++ [RunEvent.tarCopyRuntime]
            if h.tarRuntimeOk = false then (t2, .exited 1)
            else
              let t3 := t2 ++ [RunEvent.tarCopyApp]
                ++ (if h.tarAppOk then [] else
                      [RunEvent.warn "App copy may have failed"])
              let bp := binPath (finalCmdFrom rawSockets (defaultCmd md.command) argv0)
              let rest := postTarTrace h bp
              (t3 ++ rest.1, rest.2)

/-- The function `run_app` on the full trailing argument vector: only `argv.get(0)` is
ever consulted (line 437); the remaining arguments appear nowhere, and the
confined process is started by `exec "<bin_path>"` with no arguments
(lines 576-600). -/
def runApp (h : Host) (appId : String) (argv : List String)
    (rawSockets : Bool) : List RunEvent × Outcome :=
  runAppFrom h appId argv.head? rawSockets

def isMount : RunEvent → Bool
  | .mountTmpfs => true
  | .bindMount _ _ => true
  | .mountPseudo _ => true
  | _ => false

/-- Whether the bridge's host-side resource exists (lines 346, 366, 372-374,
384, 393, 400): the Wayland bridge additionally requires the
`WAYLAND_DISPLAY` environment variable to be set. -/
def bridgeCond (h : Host) : Bridge → Bool
  | .fonts => h.hostFontsExist
  | .x11 => h.x11Exists
  | .wayland => h.waylandDisplay.isSome && h.waylandSocketExists
  | .pulse => h.pulseExists
  | .atspi => h.atspiExists
  | .dbus => h.dbusExists

/-- Bridge mount read-only flag: fonts are mounted read-only, sockets
read-write (lines 350, 370, 378, 390, 397, 404). -/
def bridgeRO : Bridge → Bool
  | .fonts => true
  | _ => false

/-- A concrete host where every lookup succeeds, used by the witnesses. -/
def sampleHost : Host where
  userName := "alice"
  uid := "1000"
  waylandDisplay := some "wayland-0"
  pathExists := fun _ => true
  metadata := some ⟨some "rt/x86_64/stable", some "editor"⟩
  prevRootExists := true
  tmpfsOk := true
  tarRuntimeOk := true
  tarAppOk := true
  hostFontsExist := true
  x11Exists := true
  waylandSocketExists := true
  pulseExists := true
  atspiExists := true
  dbusExists := true
  shExists := true
  jailOk := true
  binInJail := true
  spawnOk := true
  childExit := some 7

/-! ## Compatibility-library injection (inject_missing_libs, lines 528-572)

`LibWorld.jailHas sub name` says whether `<root>/<sub>/<name>` exists
(`sub` is `"lib"` or `"lib64"`); `hostHas dir name` whether `<dir>/<name>`
exists on the host; the `copyOk` oracle is the result of `fs::copy`. -/

def compat_dirs : List String :=
  ["/compat/ubuntu/lib", "/compat/ubuntu/lib64",
   "/compat/linux/usr/lib", "/compat/linux/usr/lib64"]

def requiredLibs : List String :=
  ["libGLEW.so.2.2", "libGL.so.1", "libGLU.so.1", "libEGL.so.1",
   "libGLESv2.so.2"]

/-- Line 551: a source directory ending in `64` targets `lib64`, otherwise
`lib`. -/
def targetSubdir (dir : String) : String :=
  if strEnds dir "64" then "lib64" else "lib"

structure LibWorld where
  jailHas : String → String → Bool
  hostHas : String → String → Bool

inductive LibEvent where
  | copy (fromDir name toSubdir : String)
  | copyFail (fromDir name : String)
  | warnMissing (name : String)
deriving DecidableEq, Repr

def addToJail (w : LibWorld) (subdir name : String) : LibWorld :=
  { w with jailHas := fun s n =>
      if s = subdir ∧ n = name then true else w.jailHas s n }

/-- Lines 547-563: walk the search directories in order; the first one
holding the library is copied from (and the loop breaks); a failed copy is
reported and the search continues with the next directory. -/
def tryDirs (w : LibWorld) (copyOk : String → String → Bool)
    (name : String) : List String → LibWorld × List LibEvent × Bool
  | [] => (w, [], false)
  | d :: rest =>
    if w.hostHas d name then
      if copyOk d name then
        (addToJail w (targetSubdir d) name,
         [LibEvent.copy d name (targetSubdir d)], true)
      else
        let r := tryDirs w copyOk name rest
        (r.1, LibEvent.copyFail d name :: r.2.1, r.2.2)
    else
      tryDirs w copyOk name rest

/-- One iteration of the outer loop (lines 535-567): skip a library already
present under the root's `lib` or `lib64`, otherwise search the host
directories, warning when no directory yields a copy. -/
def injectOne (w : LibWorld) (copyOk : String → String → Bool)
    (name : String) : LibWorld × List LibEvent :=
  if w.jailHas "lib" name || w.jailHas "lib64" name then (w, [])
  else
    let r := tryDirs w copyOk name compat_dirs
    if r.2.2 then (r.1, r.2.1)
    else (r.1, r.2.1 ++ [LibEvent.warnMissing name])

/-- The whole of `inject_missing_libs`, folded over the library list. -/
def injectLibs (w : LibWorld) (copyOk : String → String → Bool) :
    List String → LibWorld × List LibEvent
  | [] => (w, [])
  | n :: rest =>
    let r := injectOne w copyOk n
    let r2 := injectLibs r.1 copyOk rest
    (r2.1, r.2 ++ r2.2)

def isCopy : LibEvent → Bool
  | .copy _ _ _ => true
  | _ => false

def countCopies (evs : List LibEvent) : Nat :=
  evs.countP (fun e => isCopy e)

/-! ## Theorems -/

/-- C3: Reference canonicalization is a pure function of the input string
for non-descriptor inputs: a bare identifier with no slash maps to
`app/<id>/x86_64/stable` on the well-known public remote; an input with a
slash already starting with `runtime/` or `app/` is used unchanged; an
input with a slash and no such prefix gets `runtime/` prefixed.  In all
these cases resolution is the pure function `resolveNonDescriptor`. -/
theorem resolve_canonicalization (input : String)
    (h : strEnds input ".flatpakref" = false) :
    resolveInput input = .pure (resolveNonDescriptor input) ∧
    (strContains input '/' = false →
      resolveNonDescriptor input =
        ⟨"app/" ++ input ++ "/x86_64/stable", "flathub", FLATHUB_URL⟩) ∧
    (strContains input '/' = true →
      (strStarts input "runtime/" || strStarts input "app/") = true →
      resolveNonDescriptor input = ⟨input, "flathub", FLATHUB_URL⟩) ∧
    (strContains input '/' = true →
      (strStarts input "runtime/" || strStarts input "app/") = false →
      resolveNonDescriptor input = ⟨"runtime/" ++ input, "flathub", FLATHUB_URL⟩) := by
  refine ⟨by simp [resolveInput, h], ?_, ?_, ?_⟩
  · intro h1
    simp [resolveNonDescriptor, h1]
  · intro h1 h2
    simp [resolveNonDescriptor, h1, h2]
  · intro h1 h2
    simp [resolveNonDescriptor, h1, h2]

/-- Witness for C3 at the concrete input `"foo"`. -/
theorem resolve_canonicalization_witness :
    strEnds "foo" ".flatpakref" = false ∧ strContains "foo" '/' = false ∧
    resolveNonDescriptor "foo" =
      ⟨"app/foo/x86_64/stable", "flathub", FLATHUB_URL⟩ :=
  ⟨by decide, by decide,
   (resolve_canonicalization "foo" (by decide)).2.1 (by decide)⟩

/-- A fresh (missing-or-empty commit directory) install with a successful
checkout produces `freshFS` and emits the stale-directory removal (when
applicable), the checkout, and the active-pointer swap, in that order. -/
theorem checkout_fresh_eq (repo : RepoState) (fs : InstallFS)
    (refId commit : String)
    (hmiss : dirMissingOrEmpty (fs.commitEntries refId commit) = true) :
    checkoutAndActivate repo true fs refId commit =
      .ok (freshFS repo fs refId commit)
        ((if (fs.commitEntries refId commit).isSome then
            [InstallEvent.removeCommitDir refId commit] else [])
          ++ [InstallEvent.checkout commit]
          ++ (if (fs.active refId).isSome then
                [InstallEvent.removeActive refId] else [])
          ++ [InstallEvent.setActive refId commit]) := by
  simp [checkoutAndActivate, hmiss, setActivePointer, freshFS]

/-- An install that finds the commit directory already present and
non-empty skips checkout and only swaps the active pointer. -/
theorem checkout_skip_eq (repo : RepoState) (checkoutOk : Bool)
    (fs : InstallFS) (refId commit : String)
    (hnon : dirMissingOrEmpty (fs.commitEntries refId commit) = false) :
    checkoutAndActivate repo checkoutOk fs refId commit =
      .ok (skipFS fs refId commit)
        ((if (fs.active refId).isSome then
            [InstallEvent.removeActive refId] else [])
          ++ [InstallEvent.setActive refId commit]) := by
  simp [checkoutAndActivate, hnon, setActivePointer, skipFS]

/-- C1: calling install twice with the same identifier performs exactly one
checkout: starting from a state where the commit directory is missing or
empty, the first call checks out once; the second call observes a non-empty
existing commit directory, skips checkout, yet still replaces the active
pointer with the resolved commit. -/
theorem install_idempotent (repo : RepoState) (fs : InstallFS)
    (refId commit : String)
    (hmiss : dirMissingOrEmpty (fs.commitEntries refId commit) = true)
    (hcontent : 0 < repo.content commit) :
    ∃ fs1 ev1 fs2 ev2,
      checkoutAndActivate repo true fs refId commit = .ok fs1 ev1 ∧
      checkoutAndActivate repo true fs1 refId commit = .ok fs2 ev2 ∧
      countCheckouts ev1 = 1 ∧
      countCheckouts ev2 = 0 ∧
      dirMissingOrEmpty (fs1.commitEntries refId commit) = false ∧
      InstallEvent.setActive refId commit ∈ ev2 ∧
      fs2.active refId = some commit := by
  have hne : dirMissingOrEmpty
      ((freshFS repo fs refId commit).commitEntries refId commit) = false := by
    simp [freshFS, dirMissingOrEmpty, Nat.pos_iff_ne_zero.mp hcontent]
  refine ⟨freshFS repo fs refId commit, _, skipFS (freshFS repo fs refId commit) refId commit, _,
    checkout_fresh_eq repo fs refId commit hmiss,
    checkout_skip_eq repo true (freshFS repo fs refId commit) refId commit hne,
    ?_, ?_, hne, ?_, ?_⟩
  · cases h1 : (fs.commitEntries refId commit).isSome <;>
      cases h2 : (fs.active refId).isSome <;>
        simp [countCheckouts, isCheckout, h1, h2]
  · cases h2 : ((freshFS repo fs refId commit).active refId).isSome <;>
      simp [countCheckouts, isCheckout, h2]
  · simp
  · simp [skipFS]

/-- Witness for C1 on a concrete empty store. -/
theorem install_idempotent_witness :
    dirMissingOrEmpty ((InstallFS.mk (fun _ _ => none) (fun _ => none)).commitEntries
      "app/foo/x86_64/stable" "abc") = true ∧
    0 < (RepoState.mk (fun _ => 5)).content "abc" ∧
    ∃ fs1 ev1 fs2 ev2,
      checkoutAndActivate (RepoState.mk (fun _ => 5)) true
        (InstallFS.mk (fun _ _ => none) (fun _ => none))
        "app/foo/x86_64/stable" "abc" = .ok fs1 ev1 ∧
      checkoutAndActivate (RepoState.mk (fun _ => 5)) true fs1
        "app/foo/x86_64/stable" "abc" = .ok fs2 ev2 ∧
      countCheckouts ev1 = 1 ∧
      countCheckouts ev2 = 0 ∧
      dirMissingOrEmpty (fs1.commitEntries "app/foo/x86_64/stable" "abc") = false ∧
      InstallEvent.setActive "app/foo/x86_64/stable" "abc" ∈ ev2 ∧
      fs2.active "app/foo/x86_64/stable" = some "abc" :=
  ⟨rfl, by decide,
   install_idempotent (RepoState.mk (fun _ => 5))
     (InstallFS.mk (fun _ _ => none) (fun _ => none))
     "app/foo/x86_64/stable" "abc" rfl (by decide)⟩

/-- C2: after any install invocation whose checkout-and-activate phase
succeeds (the process did not exit non-zero there), the active pointer for
the installed reference names a commit whose directory exists and contains
at least one entry — assuming, as the external store guarantees for
installable commits, that a successful checkout materializes a non-empty
tree. -/
theorem install_active_pointer_invariant (repo : RepoState)
    (checkoutOk : Bool) (fs : InstallFS) (refId commit : String)
    (fs' : InstallFS) (evs : List InstallEvent)
    (hcontent : 0 < repo.content commit)
    (hok : checkoutAndActivate repo checkoutOk fs refId commit = .ok fs' evs) :
    ∃ n, fs'.commitEntries refId commit = some n ∧ 0 < n ∧
      fs'.active refId = some commit := by
  by_cases hm : dirMissingOrEmpty (fs.commitEntries refId commit) = true
  · cases hco : checkoutOk
    · subst hco
      simp [checkoutAndActivate, hm] at hok
    · subst hco
      rw [checkout_fresh_eq repo fs refId commit hm] at hok
      obtain ⟨h1, -⟩ := InstallResult.ok.inj hok
      subst h1
      exact ⟨repo.content commit, by simp [freshFS], hcontent, by simp [freshFS]⟩
  · have hm' : dirMissingOrEmpty (fs.commitEntries refId commit) = false := by
      simpa using hm
    rw [checkout_skip_eq repo checkoutOk fs refId commit hm'] at hok
    obtain ⟨h1, -⟩ := InstallResult.ok.inj hok
    subst h1
    cases he : fs.commitEntries refId commit with
    | none => rw [he] at hm'; simp [dirMissingOrEmpty] at hm'
    | some n =>
      rw [he] at hm'
      have hn : 0 < n := by
        rcases Nat.eq_zero_or_pos n with h0 | h0
        · subst h0; simp [dirMissingOrEmpty] at hm'
        · exact h0
      exact ⟨n, by simp [skipFS, he], hn, by simp [skipFS]⟩

/-- Witness for C2 on a concrete fresh install. -/
theorem install_active_pointer_invariant_witness :
    0 < (RepoState.mk fun _ => 3).content "def" ∧
    (∃ n, (freshFS (RepoState.mk fun _ => 3)
        (InstallFS.mk (fun _ _ => none) (fun _ => none))
        "app/bar/x86_64/stable" "def").commitEntries
        "app/bar/x86_64/stable" "def" = some n ∧ 0 < n ∧
      (freshFS (RepoState.mk fun _ => 3)
        (InstallFS.mk (fun _ _ => none) (fun _ => none))
        "app/bar/x86_64/stable" "def").active
        "app/bar/x86_64/stable" = some "def") :=
  ⟨by decide,
   install_active_pointer_invariant (RepoState.mk fun _ => 3) true
     (InstallFS.mk (fun _ _ => none) (fun _ => none))
     "app/bar/x86_64/stable" "def"
     (freshFS (RepoState.mk fun _ => 3)
       (InstallFS.mk (fun _ _ => none) (fun _ => none))
       "app/bar/x86_64/stable" "def")
     [InstallEvent.checkout "def",
      InstallEvent.setActive "app/bar/x86_64/stable" "def"]
     (by decide) rfl⟩

/-! Helper lemmas about `runAppFrom` and its phases. -/

theorem mem_if_singleton {α : Type} (e x : α) (b : Bool) :
    (e ∈ (if b then [x] else [])) ↔ (b = true ∧ e = x) := by
  cases b <;> simp

theorem teardownTrace_tarRuntime (h : Host) (b : Bool) :
    teardownTrace { h with tarRuntimeOk := b } = teardownTrace h := rfl

theorem teardownTrace_tarApp (h : Host) (b : Bool) :
    teardownTrace { h with tarAppOk := b } = teardownTrace h := rfl

theorem postTarTrace_tarApp (h : Host) (b : Bool) (bp : String) :
    postTarTrace { h with tarAppOk := b } bp = postTarTrace h bp := rfl

/-- Unfolding of a run that reaches the tree-copy phase and whose runtime
copy succeeds: the trace is teardown, tmpfs mount, the two tar copies, the
optional app-copy warning, then everything from layout repair onward. -/
theorem runAppFrom_reached (h : Host) (appId : String) (argv0 : Option String)
    (rs : Bool) (md : Metadata) (rt : String)
    (hmd : h.metadata = some md) (hrt : md.runtime = some rt)
    (hlen : 3 ≤ (splitSlash rt).length)
    (happ : h.pathExists (appFilesPath appId) = true)
    (hrtf : h.pathExists (runtimeFilesPath rt) = true)
    (htmp : h.tmpfsOk = true) (htar : h.tarRuntimeOk = true) :
    runAppFrom h appId argv0 rs =
      (teardownTrace h
        ++ [RunEvent.mountTmpfs, RunEvent.tarCopyRuntime, RunEvent.tarCopyApp]
        ++ (if h.tarAppOk then [] else [RunEvent.warn "App copy may have failed"])
        ++ (postTarTrace h (binPath (finalCmdFrom rs (defaultCmd md.command) argv0))).1,
       (postTarTrace h (binPath (finalCmdFrom rs (defaultCmd md.command) argv0))).2) := by
  simp [runAppFrom, hmd, hrt, Nat.not_lt.mpr hlen, happ, hrtf, htmp, htar]

/-- A run whose tmpfs mount fails exits 1 right after the mount attempt. -/
theorem runAppFrom_tmpfs_fail (h : Host) (appId : String) (argv0 : Option String)
    (rs : Bool) (md : Metadata) (rt : String)
    (hmd : h.metadata = some md) (hrt : md.runtime = some rt)
    (hlen : 3 ≤ (splitSlash rt).length)
    (happ : h.pathExists (appFilesPath appId) = true)
    (hrtf : h.pathExists (runtimeFilesPath rt) = true)
    (htmp : h.tmpfsOk = false) :
    runAppFrom h appId argv0 rs =
      (teardownTrace h ++ [RunEvent.mountTmpfs], .exited 1) := by
  simp [runAppFrom, hmd, hrt, Nat.not_lt.mpr hlen, happ, hrtf, htmp]

/-- A run whose runtime tree copy fails exits 1 right after the copy
attempt, before any later phase. -/
theorem runAppFrom_tarRuntime_fail (h : Host) (appId : String)
    (argv0 : Option String) (rs : Bool) (md : Metadata) (rt : String)
    (hmd : h.metadata = some md) (hrt : md.runtime = some rt)
    (hlen : 3 ≤ (splitSlash rt).length)
    (happ : h.pathExists (appFilesPath appId) = true)
    (hrtf : h.pathExists (runtimeFilesPath rt) = true)
    (htmp : h.tmpfsOk = true) (htar : h.tarRuntimeOk = false) :
    runAppFrom h appId argv0 rs =
      (teardownTrace h ++ [RunEvent.mountTmpfs, RunEvent.tarCopyRuntime],
       .exited 1) := by
  simp [runAppFrom, hmd, hrt, Nat.not_lt.mpr hlen, happ, hrtf, htmp, htar]

/-- C4: during tree provisioning, a failure of the runtime file-tree copy
(producer spawn error or non-zero consumer status, `tarRuntimeOk = false`)
terminates the process with exit status 1 immediately after the copy
attempt, while a failure of the app file-tree copy only inserts a warning
into the trace: the remaining pipeline (starting with the layout-repair
phase) and the final outcome are identical to the success case. -/
theorem run_tree_copy_policy (h : Host) (appId : String) (argv : List String)
    (rs : Bool) (md : Metadata) (rt : String)
    (hmd : h.metadata = some md) (hrt : md.runtime = some rt)
    (hlen : 3 ≤ (splitSlash rt).length)
    (happ : h.pathExists (appFilesPath appId) = true)
    (hrtf : h.pathExists (runtimeFilesPath rt) = true)
    (htmp : h.tmpfsOk = true) :
    runApp { h with tarRuntimeOk := false } appId argv rs =
      (teardownTrace h ++ [RunEvent.mountTmpfs, RunEvent.tarCopyRuntime],
       .exited 1) ∧
    (h.tarRuntimeOk = true →
      ∃ pre post oc,
        runApp { h with tarAppOk := true } appId argv rs = (pre ++ post, oc) ∧
        runApp { h with tarAppOk := false } appId argv rs =
          (pre ++ RunEvent.warn "App copy may have failed" :: post, oc) ∧
        post.head? = some RunEvent.repairLayout) := by
  constructor
  · rw [runApp, runAppFrom_tarRuntime_fail { h with tarRuntimeOk := false }
      appId argv.head? rs md rt hmd hrt hlen happ hrtf htmp rfl,
      teardownTrace_tarRuntime]
  · intro htar
    refine ⟨teardownTrace h
        ++ [RunEvent.mountTmpfs, RunEvent.tarCopyRuntime, RunEvent.tarCopyApp],
      (postTarTrace h (binPath (finalCmdFrom rs (defaultCmd md.command)
        argv.head?))).1,
      (postTarTrace h (binPath (finalCmdFrom rs (defaultCmd md.command)
        argv.head?))).2, ?_, ?_, ?_⟩
    · rw [runApp, runAppFrom_reached { h with tarAppOk := true }
        appId argv.head? rs md rt hmd hrt hlen happ hrtf htmp htar,
        teardownTrace_tarApp, postTarTrace_tarApp]
      simp
    · rw [runApp, runAppFrom_reached { h with tarAppOk := false }
        appId argv.head? rs md rt hmd hrt hlen happ hrtf htmp htar,
        teardownTrace_tarApp, postTarTrace_tarApp]
      simp
    · simp [postTarTrace]

/-- C5: when a prior ephemeral root for the application id exists, the run
first unregisters the jail, then force-unmounts each well-known mount
target — most-specific-first, the root itself after all of them — then
removes the root tree; no event of this teardown prefix is a mount, and the
first mount of the fresh sandbox (the tmpfs root) comes strictly after it. -/
theorem run_teardown_before_mount (h : Host) (appId : String)
    (argv : List String) (rs : Bool) (md : Metadata) (rt : String)
    (hmd : h.metadata = some md) (hrt : md.runtime = some rt)
    (hlen : 3 ≤ (splitSlash rt).length)
    (happ : h.pathExists (appFilesPath appId) = true)
    (hrtf : h.pathExists (runtimeFilesPath rt) = true)
    (hprev : h.prevRootExists = true) :
    teardownTrace h =
      [RunEvent.jailRemove,
       RunEvent.umountSub "tmp/.X11-unix",
       RunEvent.umountSub "dev",
       RunEvent.umountSub "proc",
       RunEvent.umountSub "sys",
       RunEvent.umountSub "var/run/dbus",
       RunEvent.umountSub "run/host/fonts",
       RunEvent.umountSub ("var/run/xdg/" ++ h.userName ++ "/at-spi")]
      ++ (match h.waylandDisplay with
          | some wl => [RunEvent.umountSub ("run/user/" ++ h.uid ++ "/" ++ wl)]
          | none => [])
      ++ [RunEvent.umountRoot, RunEvent.removeRootTree] ∧
    (teardownTrace h).all (fun e => !isMount e) = true ∧
    ∃ rest, (runApp h appId argv rs).1 = teardownTrace h ++ rest ∧
      rest.head? = some RunEvent.mountTmpfs := by
  refine ⟨by simp [teardownTrace, hprev], ?_, ?_⟩
  · rcases hw : h.waylandDisplay with _ | wl <;>
      simp [teardownTrace, hprev, hw, isMount]
  · cases htmp : h.tmpfsOk
    · refine ⟨[RunEvent.mountTmpfs], ?_, rfl⟩
      rw [runApp, runAppFrom_tmpfs_fail h appId argv.head? rs md rt
        hmd hrt hlen happ hrtf htmp]
    · cases htar : h.tarRuntimeOk
      · refine ⟨[RunEvent.mountTmpfs, RunEvent.tarCopyRuntime], ?_, rfl⟩
        rw [runApp, runAppFrom_tarRuntime_fail h appId argv.head? rs md rt
          hmd hrt hlen happ hrtf htmp htar]
      · refine ⟨[RunEvent.mountTmpfs, RunEvent.tarCopyRuntime,
          RunEvent.tarCopyApp]
          ++ (if h.tarAppOk then [] else
                [RunEvent.warn "App copy may have failed"])
          ++ (postTarTrace h (binPath (finalCmdFrom rs
                (defaultCmd md.command) argv.head?))).1, ?_, rfl⟩
        rw [runApp, runAppFrom_reached h appId argv.head? rs md rt
          hmd hrt hlen happ hrtf htmp htar]
        simp

/-- C6: with a fully successful setup and a normally terminating child of
exit code `c`, the run's outcome is exit code `c` and the only event after
the spawn is the jail unregistration — in particular no unmount or
root-tree removal happens on exit.  Missing app files, missing runtime
files, a failed tmpfs mount, a missing shell interpreter, and a failed
jail creation each exit with status 1. -/
theorem run_exit_behavior (h : Host) (appId : String) (argv : List String)
    (rs : Bool) (md : Metadata) (rt : String)
    (hmd : h.metadata = some md) (hrt : md.runtime = some rt)
    (hlen : 3 ≤ (splitSlash rt).length)
    (happ : h.pathExists (appFilesPath appId) = true)
    (hrtf : h.pathExists (runtimeFilesPath rt) = true)
    (htmp : h.tmpfsOk = true) (htar : h.tarRuntimeOk = true)
    (hsh : h.shExists = true) (hjail : h.jailOk = true)
    (hspawn : h.spawnOk = true) (c : Nat) (hc : h.childExit = some c) :
    ((runApp h appId argv rs).2 = .exited c ∧
     ∃ pre bp, (runApp h appId argv rs).1 =
        pre ++ [RunEvent.spawnChild bp, RunEvent.jailRemove]) ∧
    (∀ h' : Host, h'.pathExists (appFilesPath appId) = false →
      runApp h' appId argv rs = ([], .exited 1)) ∧
    (∀ h' : Host, h'.metadata = some md →
      h'.pathExists (appFilesPath appId) = true →
      h'.pathExists (runtimeFilesPath rt) = false →
      runApp h' appId argv rs = ([], .exited 1)) ∧
    (runApp { h with tmpfsOk := false } appId argv rs).2 = .exited 1 ∧
    (runApp { h with shExists := false } appId argv rs).2 = .exited 1 ∧
    (runApp { h with jailOk := false } appId argv rs).2 = .exited 1 := by
  refine ⟨⟨?_, ?_⟩, ?_, ?_, ?_, ?_, ?_⟩
  · rw [runApp, runAppFrom_reached h appId argv.head? rs md rt
      hmd hrt hlen happ hrtf htmp htar]
    simp [postTarTrace, launchTrace, hsh, hjail, hspawn, hc]
  · refine ⟨teardownTrace h
      ++ [RunEvent.mountTmpfs, RunEvent.tarCopyRuntime, RunEvent.tarCopyApp]
      ++ (if h.tarAppOk then [] else [RunEvent.warn "App copy may have failed"])
      ++ [RunEvent.repairLayout, RunEvent.buildRunHierarchy]
      ++ bridgeTrace h ++ pseudoTrace ++ [RunEvent.jailCreate]
      ++ (if h.binInJail then
            [RunEvent.brand (binPath (finalCmdFrom rs
              (defaultCmd md.command) argv.head?))] else []),
      binPath (finalCmdFrom rs (defaultCmd md.command) argv.head?), ?_⟩
    rw [runApp, runAppFrom_reached h appId argv.head? rs md rt
      hmd hrt hlen happ hrtf htmp htar]
    simp [postTarTrace, launchTrace, hsh, hjail, hspawn, hc]
  · intro h' hp
    simp [runApp, runAppFrom, hp]
  · intro h' hmd' hp hrf
    simp [runApp, runAppFrom, hmd', hrt, Nat.not_lt.mpr hlen, hp, hrf]
  · rw [runApp, runAppFrom_tmpfs_fail { h with tmpfsOk := false }
      appId argv.head? rs md rt hmd hrt hlen happ hrtf rfl]
  · rw [runApp, runAppFrom_reached { h with shExists := false }
      appId argv.head? rs md rt hmd hrt hlen happ hrtf htmp htar]
    simp [postTarTrace, launchTrace]
  · rw [runApp, runAppFrom_reached { h with jailOk := false }
      appId argv.head? rs md rt hmd hrt hlen happ hrtf htmp htar]
    simp [postTarTrace, launchTrace, hsh]

/-- A bind-mount event occurs in the bridge phase exactly when the
host-side condition for that bridge holds, with the read-only flag fixed
per bridge. -/
theorem mem_bridgeTrace (h : Host) (b : Bridge) (ro : Bool) :
    (RunEvent.bindMount b ro ∈ bridgeTrace h) ↔
      (bridgeCond h b = true ∧ ro = bridgeRO b) := by
  rcases hw : h.waylandDisplay with _ | wl <;> cases b <;> cases ro <;>
    simp [bridgeTrace, bridgeCond, bridgeRO, hw, mem_if_singleton]

theorem bindMount_not_mem_teardown (h : Host) (b : Bridge) (ro : Bool) :
    RunEvent.bindMount b ro ∉ teardownTrace h := by
  cases hp : h.prevRootExists <;> rcases hw : h.waylandDisplay with _ | wl <;>
    simp [teardownTrace, hp, hw]

theorem bindMount_not_mem_launch (h : Host) (bp : String) (b : Bridge)
    (ro : Bool) : RunEvent.bindMount b ro ∉ (launchTrace h bp).1 := by
  cases hsh : h.shExists <;> cases hj : h.jailOk <;> cases hb : h.binInJail <;>
    cases hsp : h.spawnOk <;> rcases hc : h.childExit with _ | c <;>
      simp [launchTrace, hsh, hj, hb, hsp, hc]

/-- C7: each optional host-resource bridge (fonts, X11 socket, Wayland
socket, audio socket, accessibility bus, system bus) is bind-mounted in a
run that reaches the bridge phase exactly when its host-side resource
exists (for Wayland: the environment variable is set and the socket
exists); an absent resource is skipped, and the run's outcome does not
depend on any combination of the optional-bridge conditions. -/
theorem run_optional_bridges (h : Host) (appId : String) (argv : List String)
    (rs : Bool) (md : Metadata) (rt : String)
    (hmd : h.metadata = some md) (hrt : md.runtime = some rt)
    (hlen : 3 ≤ (splitSlash rt).length)
    (happ : h.pathExists (appFilesPath appId) = true)
    (hrtf : h.pathExists (runtimeFilesPath rt) = true)
    (htmp : h.tmpfsOk = true) (htar : h.tarRuntimeOk = true) :
    ((RunEvent.bindMount .fonts true ∈ (runApp h appId argv rs).1) ↔
      h.hostFontsExist = true) ∧
    ((RunEvent.bindMount .x11 false ∈ (runApp h appId argv rs).1) ↔
      h.x11Exists = true) ∧
    ((RunEvent.bindMount .wayland false ∈ (runApp h appId argv rs).1) ↔
      (h.waylandDisplay.isSome = true ∧ h.waylandSocketExists = true)) ∧
    ((RunEvent.bindMount .pulse false ∈ (runApp h appId argv rs).1) ↔
      h.pulseExists = true) ∧
    ((RunEvent.bindMount .atspi false ∈ (runApp h appId argv rs).1) ↔
      h.atspiExists = true) ∧
    ((RunEvent.bindMount .dbus false ∈ (runApp h appId argv rs).1) ↔
      h.dbusExists = true) ∧
    (∀ f x w p a d : Bool,
      (runApp { h with
          hostFontsExist := f, x11Exists := x, waylandSocketExists := w,
          pulseExists := p, atspiExists := a, dbusExists := d }
        appId argv rs).2 = (runApp h appId argv rs).2) := by
  have key : ∀ (b : Bridge) (ro : Bool),
      (RunEvent.bindMount b ro ∈ (runApp h appId argv rs).1) ↔
        (bridgeCond h b = true ∧ ro = bridgeRO b) := by
    intro b ro
    rw [runApp, runAppFrom_reached h appId argv.head? rs md rt
      hmd hrt hlen happ hrtf htmp htar]
    cases hta : h.tarAppOk <;>
      simp [postTarTrace, pseudoTrace, mem_bridgeTrace,
        bindMount_not_mem_teardown, bindMount_not_mem_launch]
  refine ⟨?_, ?_, ?_, ?_, ?_, ?_, ?_⟩
  · rw [key]
    simp [bridgeCond, bridgeRO]
  · rw [key]
    simp [bridgeCond, bridgeRO]
  · rw [key]
    simp [bridgeCond, bridgeRO]
  · rw [key]
    simp [bridgeCond, bridgeRO]
  · rw [key]
    simp [bridgeCond, bridgeRO]
  · rw [key]
    simp [bridgeCond, bridgeRO]
  · intro f x w p a d
    rw [runApp, runApp,
      runAppFrom_reached { h with
          hostFontsExist := f, x11Exists := x, waylandSocketExists := w,
          pulseExists := p, atspiExists := a, dbusExists := d }
        appId argv.head? rs md rt hmd hrt hlen happ hrtf htmp htar,
      runAppFrom_reached h appId argv.head? rs md rt hmd hrt hlen happ hrtf
        htmp htar]
    rfl

/-- C9: `run` locates the app exclusively at the fixed path
`app/<id>/x86_64/stable/active/files` (line 211): whenever that path is
absent the run exits 1 immediately with no events — even when the same app
id is installed under a different architecture or branch. -/
theorem run_fixed_arch_branch (h : Host) (appId : String)
    (argv : List String) (rs : Bool) (arch branch : String)
    (hne : ¬(arch = "x86_64" ∧ branch = "stable"))
    (hother : h.pathExists ["app", appId, arch, branch, "active", "files"]
      = true)
    (hmain : h.pathExists (appFilesPath appId) = false) :
    runApp h appId argv rs = ([], .exited 1) ∧
    appFilesPath appId = ["app", appId, "x86_64", "stable", "active", "files"] :=
  ⟨by simp [runApp, runAppFrom, hmain], rfl⟩

/-- C10: in a run invocation only the first trailing argument is ever
consulted — the whole run on `a :: rest` equals the run on `[a]`, for any
`rest` — and with the (only reachable) `raw_sockets = true` it replaces the
metadata default command; with no trailing arguments the metadata command
(or `sh` when the key is absent) is used.  When the run reaches the launch,
the spawned command is exactly the `/app/bin/`-resolved first trailing
argument (and the confined process receives no further arguments: the
spawn event carries only the binary path, as `exec "<bin_path>"` does). -/
theorem run_trailing_args (h : Host) (appId a : String) (rest : List String)
    (rs : Bool) (dc cmd : String) (md : Metadata) (rt : String)
    (hmd : h.metadata = some md) (hrt : md.runtime = some rt)
    (hlen : 3 ≤ (splitSlash rt).length)
    (happ : h.pathExists (appFilesPath appId) = true)
    (hrtf : h.pathExists (runtimeFilesPath rt) = true)
    (htmp : h.tmpfsOk = true) (htar : h.tarRuntimeOk = true)
    (hsh : h.shExists = true) (hjail : h.jailOk = true)
    (hspawn : h.spawnOk = true) (c : Nat) (hc : h.childExit = some c) :
    runApp h appId (a :: rest) rs = runApp h appId [a] rs ∧
    finalCmd true dc (a :: rest) = a ∧
    finalCmd true dc [] = dc ∧
    defaultCmd none = "sh" ∧
    defaultCmd (some cmd) = cmd ∧
    (∃ pre, (runApp h appId (a :: rest) true).1 =
      pre ++ [RunEvent.spawnChild (binPath a), RunEvent.jailRemove]) ∧
    (∃ pre, (runApp h appId [] true).1 =
      pre ++ [RunEvent.spawnChild (binPath (defaultCmd md.command)),
              RunEvent.jailRemove]) := by
  refine ⟨rfl, rfl, rfl, rfl, rfl, ?_, ?_⟩
  · refine ⟨teardownTrace h
      ++ [RunEvent.mountTmpfs, RunEvent.tarCopyRuntime, RunEvent.tarCopyApp]
      ++ (if h.tarAppOk then [] else [RunEvent.warn "App copy may have failed"])
      ++ [RunEvent.repairLayout, RunEvent.buildRunHierarchy]
      ++ bridgeTrace h ++ pseudoTrace ++ [RunEvent.jailCreate]
      ++ (if h.binInJail then [RunEvent.brand (binPath a)] else []), ?_⟩
    rw [runApp, show (a :: rest).head? = some a from rfl,
      runAppFrom_reached h appId (some a) true md rt
        hmd hrt hlen happ hrtf htmp htar]
    simp [postTarTrace, launchTrace, finalCmdFrom, hsh, hjail, hspawn, hc]
  · refine ⟨teardownTrace h
      ++ [RunEvent.mountTmpfs, RunEvent.tarCopyRuntime, RunEvent.tarCopyApp]
      ++ (if h.tarAppOk then [] else [RunEvent.warn "App copy may have failed"])
      ++ [RunEvent.repairLayout, RunEvent.buildRunHierarchy]
      ++ bridgeTrace h ++ pseudoTrace ++ [RunEvent.jailCreate]
      ++ (if h.binInJail then
            [RunEvent.brand (binPath (defaultCmd md.command))] else []), ?_⟩
    rw [runApp, show (List.nil (α := String)).head? = none from rfl,
      runAppFrom_reached h appId none true md rt
        hmd hrt hlen happ hrtf htmp htar]
    simp [postTarTrace, launchTrace, finalCmdFrom, hsh, hjail, hspawn, hc]

/-! Helper lemmas about the compatibility-library search. -/

theorem tryDirs_append_miss (w : LibWorld) (copyOk : String → String → Bool)
    (name : String) (pre l : List String)
    (hpre : ∀ d ∈ pre, w.hostHas d name = false) :
    tryDirs w copyOk name (pre ++ l) = tryDirs w copyOk name l := by
  induction pre with
  | nil => rfl
  | cons a as ih =>
    have ha : w.hostHas a name = false := hpre a (by simp)
    rw [List.cons_append]
    rw [show tryDirs w copyOk name (a :: (as ++ l)) =
        tryDirs w copyOk name (as ++ l) by simp [tryDirs, ha]]
    exact ih (fun d hd => hpre d (by simp [hd]))

theorem tryDirs_all_miss (w : LibWorld) (copyOk : String → String → Bool)
    (name : String) (l : List String)
    (hl : ∀ d ∈ l, w.hostHas d name = false) :
    tryDirs w copyOk name l = (w, [], false) := by
  induction l with
  | nil => rfl
  | cons a t ih =>
    rw [show tryDirs w copyOk name (a :: t) = tryDirs w copyOk name t by
      simp [tryDirs, hl a (by simp)]]
    exact ih (fun d hd => hl d (by simp [hd]))

theorem countCopies_tryDirs (w : LibWorld) (copyOk : String → String → Bool)
    (name : String) (l : List String) :
    countCopies (tryDirs w copyOk name l).2.1 ≤ 1 := by
  induction l generalizing w with
  | nil => simp [tryDirs, countCopies]
  | cons a t ih =>
    cases hh : w.hostHas a name
    · rw [show tryDirs w copyOk name (a :: t) = tryDirs w copyOk name t by
        simp [tryDirs, hh]]
      exact ih w
    · cases hc : copyOk a name
      · rw [show tryDirs w copyOk name (a :: t) =
            ((tryDirs w copyOk name t).1,
             LibEvent.copyFail a name :: (tryDirs w copyOk name t).2.1,
             (tryDirs w copyOk name t).2.2) by
          simp [tryDirs, hh, hc]]
        simpa [countCopies, isCopy] using ih w
      · rw [show tryDirs w copyOk name (a :: t) =
            (addToJail w (targetSubdir a) name,
             [LibEvent.copy a name (targetSubdir a)], true) by
          simp [tryDirs, hh, hc]]
        simp [countCopies, isCopy]

/-- C8: for each required compatibility library name, a library already
present under the ephemeral root's `lib` or `lib64` is skipped entirely (and
therefore a second attempt after a successful injection is a no-op); when it
is absent, the first host compatibility location in the fixed priority
order that contains it is the one copied; when no location contains it only
a warning is emitted; and each name causes at most one copy. -/
theorem inject_lib_policy (w : LibWorld) (copyOk : String → String → Bool)
    (name : String) (hreq : name ∈ requiredLibs) :
    ((w.jailHas "lib" name || w.jailHas "lib64" name) = true →
      injectOne w copyOk name = (w, [])) ∧
    (∀ pre d post,
      (w.jailHas "lib" name || w.jailHas "lib64" name) = false →
      compat_dirs = pre ++ d :: post →
      (∀ d' ∈ pre, w.hostHas d' name = false) →
      w.hostHas d name = true → copyOk d name = true →
      injectOne w copyOk name =
        (addToJail w (targetSubdir d) name,
         [LibEvent.copy d name (targetSubdir d)]) ∧
      injectOne (addToJail w (targetSubdir d) name) copyOk name =
        (addToJail w (targetSubdir d) name, [])) ∧
    ((w.jailHas "lib" name || w.jailHas "lib64" name) = false →
      (∀ d ∈ compat_dirs, w.hostHas d name = false) →
      injectOne w copyOk name = (w, [LibEvent.warnMissing name])) ∧
    countCopies (injectOne w copyOk name).2 ≤ 1 := by
  refine ⟨?_, ?_, ?_, ?_⟩
  · intro hj
    simp [injectOne, hj]
  · intro pre d post hj hsplit hpre hd hcopy
    have ht : tryDirs w copyOk name compat_dirs =
        (addToJail w (targetSubdir d) name,
         [LibEvent.copy d name (targetSubdir d)], true) := by
      rw [hsplit, tryDirs_append_miss w copyOk name pre (d :: post) hpre]
      simp [tryDirs, hd, hcopy]
    constructor
    · simp [injectOne, hj, ht]
    · have hj2 : ((addToJail w (targetSubdir d) name).jailHas "lib" name ||
          (addToJail w (targetSubdir d) name).jailHas "lib64" name) = true := by
        cases h64 : strEnds d "64" <;> simp [addToJail, targetSubdir, h64]
      simp [injectOne, hj2]
  · intro hj hall
    simp [injectOne, hj, tryDirs_all_miss w copyOk name compat_dirs hall,
      countCopies]
  · cases hj : (w.jailHas "lib" name || w.jailHas "lib64" name)
    · cases hfound : (tryDirs w copyOk name compat_dirs).2.2
      · have hcc := countCopies_tryDirs w copyOk name compat_dirs
        simp [injectOne, hj, hfound, countCopies, List.countP_append,
          isCopy] at hcc ⊢
        exact hcc
      · have hcc := countCopies_tryDirs w copyOk name compat_dirs
        simp [injectOne, hj, hfound]
        exact hcc
    · simp [injectOne, hj, countCopies]

/-- Witness for C4 at the all-success sample host. -/
theorem run_tree_copy_policy_witness :
    runApp { sampleHost with tarRuntimeOk := false } "demo" [] true =
      (teardownTrace sampleHost
        ++ [RunEvent.mountTmpfs, RunEvent.tarCopyRuntime], .exited 1) :=
  (run_tree_copy_policy sampleHost "demo" [] true
    ⟨some "rt/x86_64/stable", some "editor"⟩ "rt/x86_64/stable"
    rfl rfl (by decide) rfl rfl rfl).1

/-- Witness for C5 at the all-success sample host. -/
theorem run_teardown_before_mount_witness :
    sampleHost.prevRootExists = true ∧
    (teardownTrace sampleHost).all (fun e => !isMount e) = true :=
  ⟨rfl, (run_teardown_before_mount sampleHost "demo" [] true
    ⟨some "rt/x86_64/stable", some "editor"⟩ "rt/x86_64/stable"
    rfl rfl (by decide) rfl rfl rfl).2.1⟩

/-- Witness for C6: the sample child exits 7 and so does the run. -/
theorem run_exit_behavior_witness :
    sampleHost.childExit = some 7 ∧
    (runApp sampleHost "demo" [] true).2 = .exited 7 :=
  ⟨rfl, (run_exit_behavior sampleHost "demo" [] true
    ⟨some "rt/x86_64/stable", some "editor"⟩ "rt/x86_64/stable"
    rfl rfl (by decide) rfl rfl rfl rfl rfl rfl rfl 7 rfl).1.1⟩

/-- Witness for C7: the sample host has fonts and the bridge is mounted. -/
theorem run_optional_bridges_witness :
    sampleHost.hostFontsExist = true ∧
    RunEvent.bindMount .fonts true ∈ (runApp sampleHost "demo" [] true).1 :=
  ⟨rfl, ((run_optional_bridges sampleHost "demo" [] true
    ⟨some "rt/x86_64/stable", some "editor"⟩ "rt/x86_64/stable"
    rfl rfl (by decide) rfl rfl rfl rfl).1).mpr rfl⟩

/-- Witness for C9: an app installed only under `aarch64/beta` is not
found and the run exits 1. -/
theorem run_fixed_arch_branch_witness :
    ¬("aarch64" = "x86_64" ∧ "beta" = "stable") ∧
    runApp { sampleHost with
        pathExists := fun p =>
          decide (p = ["app", "demo", "aarch64", "beta", "active", "files"]) }
      "demo" [] true = ([], .exited 1) :=
  ⟨by decide,
   (run_fixed_arch_branch
     { sampleHost with
         pathExists := fun p =>
           decide (p = ["app", "demo", "aarch64", "beta", "active", "files"]) }
     "demo" [] true "aarch64" "beta" (by decide) (by decide) (by decide)).1⟩

/-- Witness for C10: extra trailing arguments do not change the run. -/
theorem run_trailing_args_witness :
    runApp sampleHost "demo" ["vim", "ignored1", "ignored2"] true =
      runApp sampleHost "demo" ["vim"] true ∧
    finalCmd true "editor" ["vim", "ignored1", "ignored2"] = "vim" :=
  ⟨(run_trailing_args sampleHost "demo" "vim" ["ignored1", "ignored2"] true
      "editor" "x" ⟨some "rt/x86_64/stable", some "editor"⟩ "rt/x86_64/stable"
      rfl rfl (by decide) rfl rfl rfl rfl rfl rfl rfl 7 rfl).1,
   (run_trailing_args sampleHost "demo" "vim" ["ignored1", "ignored2"] true
      "editor" "x" ⟨some "rt/x86_64/stable", some "editor"⟩ "rt/x86_64/stable"
      rfl rfl (by decide) rfl rfl rfl rfl rfl rfl rfl 7 rfl).2.1⟩

/-- Witness for C8: a library absent from the jail and present only in the
third search directory is copied from there. -/
theorem inject_lib_policy_witness :
    "libGL.so.1" ∈ requiredLibs ∧
    injectOne
      ⟨fun _ _ => false, fun d _ => decide (d = "/compat/linux/usr/lib")⟩
      (fun _ _ => true) "libGL.so.1" =
      (addToJail
        ⟨fun _ _ => false, fun d _ => decide (d = "/compat/linux/usr/lib")⟩
        (targetSubdir "/compat/linux/usr/lib") "libGL.so.1",
       [LibEvent.copy "/compat/linux/usr/lib" "libGL.so.1"
         (targetSubdir "/compat/linux/usr/lib")]) :=
  ⟨by decide,
   ((inject_lib_policy
     ⟨fun _ _ => false, fun d _ => decide (d = "/compat/linux/usr/lib")⟩
     (fun _ _ => true) "libGL.so.1" (by decide)).2.1
     ["/compat/ubuntu/lib", "/compat/ubuntu/lib64"] "/compat/linux/usr/lib"
     ["/compat/linux/usr/lib64"] rfl rfl (by decide) (by decide) rfl).1⟩

end Flatvodka
